import Mathlib

/-!
# Verification of the buildbotinfo build-aggregation pipeline

A shallow embedding of the two source files of the repository:

* `buildbot.py` — the domain model (`Buildbot`, `Builder`, `Build`) over the
  XMLRPC interface of a build server;
* `buildbotinfo.py` — the aggregation pipeline (`get_builds`), the render-ready
  collection (`Builds.__init__`) and the renderers (`as_text`, `as_html`,
  `as_json`, `output_as`).

Modelling conventions:

* Python timestamps (`datetime`) are modelled as `Nat`, the number of minutes
  since `datetime.min` (Python datetimes are totally ordered and bounded below
  by `datetime.min`, which is mapped to `0`); `datetime.timedelta(minutes=m)`
  is `m` in this unit.
* Standard-library functions that the source calls but that are outside the
  repository (`fnmatch.fnmatch`, `urllib`'s `quote`, `datetime.strftime`,
  `datetime.isoformat`) are taken as parameters, collected in `PyLib`.
* Python string comparison (used by `sorted`) is code-point lexicographic;
  `strLtB` implements it on `String.data`.  `str.lower`/`str.upper` are the
  ASCII case maps (the outcome strings of this program are ASCII).
* The XMLRPC proxy is a black box: `Proxy` carries the answers of its two
  remote calls, `getAllBuilders` and `getLastBuilds`.
-/

namespace BuildbotInfo

/-- Python string comparison (`<` on `str`): code-point lexicographic order on
the character lists. -/
def strLtB : List Char → List Char → Bool
  | [], [] => false
  | [], _ :: _ => true
  | _ :: _, [] => false
  | c :: cs, d :: ds => if c < d then true else if d < c then false else strLtB cs ds

/-- `s < t` for Python strings. -/
def pyStrLt (s t : String) : Prop := strLtB s.data t.data = true

instance decPyStrLt (s t : String) : Decidable (pyStrLt s t) := by
  unfold pyStrLt
  exact inferInstance

/-- Python `str.lower` (ASCII case map; the outcome strings are ASCII). -/
def pyLower (s : String) : String := ⟨s.data.map Char.toLower⟩

/-- Python `str.upper` (ASCII case map). -/
def pyUpper (s : String) : String := ⟨s.data.map Char.toUpper⟩

/-- Python `str.rstrip("/")`: remove all trailing `'/'` characters. -/
def rstripSlash (s : String) : String := ⟨(s.data.reverse.dropWhile (fun c => c = '/')).reverse⟩

/-- Python `str.split()` (no separator): split on whitespace runs, no empty parts. -/
def pySplitWs (s : String) : List String := (s.split (fun c => c.isWhitespace)).filter (fun t => ¬ t.isEmpty)

/-- `as_code` in `buildbotinfo.py`: `separator.join(name.lower().split())` with
the default separator `"-"`. -/
def as_code (name : String) : String := String.intercalate "-" (pySplitWs (pyLower name))

/-- The standard-library functions the source calls, outside this repository:
`fnmatch.fnmatch(name, pattern)`, `urllib`'s `quote`, `strftime(TIMESTAMP_FORMAT)`
and `isoformat()` on a datetime.  The development is parameterized over them. -/
structure PyLib where
  fnmatch : String → String → Bool
  urlquote : String → String
  strftime : Nat → String
  isoformat : Nat → String

/-- `Buildbot.__init__` stores `self.url = self.name = url.rstrip("/") + "/"` and
`self.repo_url = repo_url.rstrip("/") + "/"`; `name` below is that shared
`url`/`name` attribute. -/
structure Buildbot where
  name : String
  repo_url : String
deriving DecidableEq

/-- `Buildbot.__init__` (the XMLRPC proxy it also opens is modelled separately
by `Proxy`). -/
def Buildbot.init (url repo_url : String) : Buildbot :=
  { name := rstripSlash url ++ "/", repo_url := rstripSlash repo_url ++ "/" }

/-- A builder: belongs to one `Buildbot`, identified by name. -/
structure Builder where
  buildbot : Buildbot
  name : String
deriving DecidableEq

/-- A build, as `Builder.last_n_builds` constructs it: `sequence` is popped out
of the kwargs and the remaining eight fields make up `self._info` (reached
through `__getattr__`). -/
structure Build where
  builder : Builder
  name : String
  sequence : Int
  started_at : Nat
  finished_at : Nat
  branch : String
  revision : String
  result : String
  text : String
  reasons : List (String × String)
deriving DecidableEq

/-- `Buildbot.__eq__`: `self.name == other.name`. -/
def buildbotPyEq (a b : Buildbot) : Bool := a.name == b.name

/-- `Builder.__eq__`: `self.buildbot == other.buildbot and self.name == other.name`. -/
def builderPyEq (a b : Builder) : Bool := buildbotPyEq a.buildbot b.buildbot && a.name == b.name

/-- `Build.__eq__`: `self.builder == other.builder and self.sequence == other.sequence`. -/
def buildPyEq (a b : Build) : Bool := builderPyEq a.builder b.builder && a.sequence == b.sequence

/-- `Buildbot.__hash__ = hash(self.name)`.  Python hash values are modelled
injectively by the tuple that is hashed. -/
def buildbotHashKey (b : Buildbot) : String := b.name

/-- `Builder.__hash__ = hash((hash(self.buildbot), self.name))`. -/
def builderHashKey (b : Builder) : String × String := (buildbotHashKey b.buildbot, b.name)

/-- `Build.__hash__ = hash((self.builder, self.name))` — note `name`, not the
`sequence` that `Build.__eq__` compares. -/
def buildHashKey (b : Build) : (String × String) × String := (builderHashKey b.builder, b.name)

/-- Adding one element to a Python `set`: the element is already present
exactly when some retained element has the same hash (same bucket) *and*
compares equal; the first occurrence is the one retained. -/
def pySetInsert (acc : List Build) (b : Build) : List Build :=
  if acc.any (fun y => buildHashKey y == buildHashKey b && buildPyEq y b) then acc else acc ++ [b]

/-- The contents of `set(builds)` for a Python `set` built by iterating
`builds` (listed here in first-insertion order; the set's own iteration order
is arbitrary and the caller sorts the contents anyway). -/
def pySet (builds : List Build) : List Build := builds.foldl pySetInsert []

/-- The sort key of `Builds.__init__`:
`(b.builder.buildbot.name, b.builder.name, -1 * b.sequence)`. -/
def sortKey (b : Build) : String × String × Int :=
  (b.builder.buildbot.name, b.builder.name, -1 * b.sequence)

/-- How Python's `sorted` compares two key tuples: lexicographically, strings
by code points. -/
def keyLe (x y : String × String × Int) : Prop :=
  pyStrLt x.1 y.1 ∨ (x.1 = y.1 ∧ (pyStrLt x.2.1 y.2.1 ∨ (x.2.1 = y.2.1 ∧ x.2.2 ≤ y.2.2)))

instance decKeyLe (x y : String × String × Int) : Decidable (keyLe x y) := by
  unfold keyLe
  exact inferInstance

/-- The order `sorted(..., key=...)` sorts builds by in `Builds.__init__`. -/
def sortRel (a b : Build) : Prop := keyLe (sortKey a) (sortKey b)

instance decSortRel : DecidableRel sortRel := fun a b => by
  unfold sortRel
  exact inferInstance

theorem strLtB_trichotomy (a b : List Char) : strLtB a b = true ∨ a = b ∨ strLtB b a = true := by
  induction a generalizing b with
  | nil =>
    cases b with
    | nil => exact Or.inr (Or.inl rfl)
    | cons d ds => exact Or.inl rfl
  | cons c cs ih =>
    cases b with
    | nil => exact Or.inr (Or.inr rfl)
    | cons d ds =>
      rcases lt_trichotomy c d with hcd | hcd | hcd
      · left
        simp [strLtB, hcd]
      · subst hcd
        rcases ih ds with h | h | h
        · left
          simp [strLtB, lt_irrefl, h]
        · subst h
          exact Or.inr (Or.inl rfl)
        · right
          right
          simp [strLtB, lt_irrefl, h]
      · right
        right
        simp [strLtB, hcd]

theorem strLtB_trans {a b c : List Char} (h1 : strLtB a b = true) (h2 : strLtB b c = true) :
    strLtB a c = true := by
  induction a generalizing b c with
  | nil =>
    cases c with
    | nil =>
      cases b with
      | nil => exact h2
      | cons d ds => simp [strLtB] at h2
    | cons e es => simp [strLtB]
  | cons x xs ih =>
    cases b with
    | nil => simp [strLtB] at h1
    | cons y ys =>
      cases c with
      | nil => simp [strLtB] at h2
      | cons z zs =>
        simp only [strLtB] at h1 h2 ⊢
        by_cases hxy : x < y
        · by_cases hyz : y < z
          · rw [if_pos (lt_trans hxy hyz)]
          · by_cases hzy : z < y
            · rw [if_neg hyz, if_pos hzy] at h2
              exact absurd h2 (by simp)
            · have hyez : y = z := le_antisymm (le_of_not_lt hzy) (le_of_not_lt hyz)
              subst hyez
              rw [if_pos hxy]
        · by_cases hyx : y < x
          · rw [if_neg hxy, if_pos hyx] at h1
            exact absurd h1 (by simp)
          · have hxey : x = y := le_antisymm (le_of_not_lt hyx) (le_of_not_lt hxy)
            subst hxey
            rw [if_neg hxy, if_neg hxy] at h1
            by_cases hyz : x < z
            · rw [if_pos hyz]
            · by_cases hzy : z < x
              · rw [if_neg hyz, if_pos hzy] at h2
                exact absurd h2 (by simp)
              · rw [if_neg hyz, if_neg hzy] at h2 ⊢
                exact ih h1 h2

theorem pyStrLt_trans {s t u : String} (h1 : pyStrLt s t) (h2 : pyStrLt t u) : pyStrLt s u :=
  strLtB_trans h1 h2

theorem pyStrLt_trichotomy (s t : String) : pyStrLt s t ∨ s = t ∨ pyStrLt t s := by
  rcases strLtB_trichotomy s.data t.data with h | h | h
  · exact Or.inl h
  · exact Or.inr (Or.inl (String.ext h))
  · exact Or.inr (Or.inr h)

theorem keyLe_total (x y : String × String × Int) : keyLe x y ∨ keyLe y x := by
  unfold keyLe
  rcases pyStrLt_trichotomy x.1 y.1 with h | h | h
  · exact Or.inl (Or.inl h)
  · rcases pyStrLt_trichotomy x.2.1 y.2.1 with h2 | h2 | h2
    · exact Or.inl (Or.inr ⟨h, Or.inl h2⟩)
    · rcases le_total x.2.2 y.2.2 with h3 | h3
      · exact Or.inl (Or.inr ⟨h, Or.inr ⟨h2, h3⟩⟩)
      · exact Or.inr (Or.inr ⟨h.symm, Or.inr ⟨h2.symm, h3⟩⟩)
    · exact Or.inr (Or.inr ⟨h.symm, Or.inl h2⟩)
  · exact Or.inr (Or.inl h)

theorem keyLe_trans {x y z : String × String × Int} (h1 : keyLe x y) (h2 : keyLe y z) :
    keyLe x z := by
  unfold keyLe at h1 h2 ⊢
  rcases h1 with h1 | ⟨e1, h1⟩
  · rcases h2 with h2 | ⟨e2, _⟩
    · exact Or.inl (pyStrLt_trans h1 h2)
    · exact Or.inl (e2 ▸ h1)
  · rcases h2 with h2 | ⟨e2, h2⟩
    · exact Or.inl (e1 ▸ h2)
    · refine Or.inr ⟨e1.trans e2, ?_⟩
      rcases h1 with h1 | ⟨f1, h1⟩
      · rcases h2 with h2 | ⟨f2, _⟩
        · exact Or.inl (pyStrLt_trans h1 h2)
        · exact Or.inl (f2 ▸ h1)
      · rcases h2 with h2 | ⟨f2, h2⟩
        · exact Or.inl (f1 ▸ h2)
        · exact Or.inr ⟨f1.trans f2, le_trans h1 h2⟩

instance totalSortRel : IsTotal Build sortRel :=
  ⟨fun a b => keyLe_total (sortKey a) (sortKey b)⟩

instance transSortRel : IsTrans Build sortRel :=
  ⟨fun _ _ _ h1 h2 => keyLe_trans h1 h2⟩

/-- `Builds.__init__`: `self.builds = sorted(set(builds), key=lambda b: (...))`.
Python's `sorted` is a stable comparison sort, modelled by insertion sort over
the key order `sortRel`. -/
def Builds.init (builds : List Build) : List Build := List.insertionSort sortRel (pySet builds)

/-- `Builder.__init__` sets `self.url = "%s/all/builders/%s" % (self.buildbot.url,
urlquote(self.name))`. -/
def Builder.url (lib : PyLib) (c : Builder) : String :=
  c.buildbot.name ++ "/all/builders/" ++ lib.urlquote c.name

/-- `Build.__init__` sets `self.url = "%s/builds/%d" % (self.builder.url, self.sequence)`. -/
def Build.url (lib : PyLib) (b : Build) : String :=
  Builder.url lib b.builder ++ "/builds/" ++ toString b.sequence

/-- The revision link of a build line in `as_html`:
`(build.builder.buildbot.repo_url + "/rev/" + build.revision) if
build.builder.buildbot.repo_url else "#"` (a Python string is truthy exactly
when it is non-empty). -/
def revisionUrl (repo_url revision : String) : String :=
  if repo_url = "" then "#" else repo_url ++ "/rev/" ++ revision

/-- `build.builder.buildbot != bb` where `bb` starts as `None`: `Buildbot.__eq__`
returns `False` against `None`, so the first build always differs. -/
def changedBuildbot (x : Buildbot) : Option Buildbot → Bool
  | none => true
  | some y => !(buildbotPyEq x y)

/-- `build.builder != builder` where `builder` starts as `None`. -/
def changedBuilder (x : Builder) : Option Builder → Bool
  | none => true
  | some y => !(builderPyEq x y)

/-- The `<style>` block yielded by `as_html` (one multi-line string). -/
def htmlStyleBlock : String :=
  "<style>\nbody \x7bfont-family : Tahoma, Helvetica, sans-serif;\x7d\n.outcome \x7bfont-variant : small-caps; font-weight : bold;\x7d\n.success \x7bbackground-color : green; color : white;\x7d\n.failure \x7bbackground-color : red; color : white;\x7d\n.exception \x7bbackground-color : darkred; color : white;\x7d\n.retry \x7bbackground-color : orange; color : white;\x7d\nli.build \x7bpadding-bottom : 0.333em;\x7d\n</style>\n            "

/-- The fixed lines `as_html` yields before the first build. -/
def htmlPreamble : List String :=
  ["<!DOCTYPE html>", "<meta charset=utf-8>", "<html>", "<head>", "<title>Buildbot Info</title>",
    htmlStyleBlock, "</head>", "<body>"]

/-- The `<h1>` line `as_html` yields when the buildbot changes (`bb.url` and
`bb.name` are the same attribute). -/
def htmlServerHeader (bb : Buildbot) : String :=
  "<h1>Builds for <a href=\"" ++ bb.name ++ "\">" ++ bb.name ++ "</a> against <a href=\"" ++
    bb.repo_url ++ "\">" ++ bb.repo_url ++ "</a></h1>"

/-- The `<li>` line `as_html` yields per build. -/
def htmlBuildLine (lib : PyLib) (b : Build) : String :=
  "<li class=\"build\"><span class=\"outcome " ++ pyLower b.result ++ "\">" ++ pyUpper b.result ++
    "</span> <a href=\"" ++ Build.url lib b ++ "\">Build " ++ toString b.sequence ++
    "</a> on branch " ++ b.branch ++ " <a href=\"" ++
    revisionUrl b.builder.buildbot.repo_url b.revision ++ "\">rev " ++ b.revision ++ "</a> at " ++
    lib.strftime b.finished_at ++ "<br></li>"

/-- The loop of `as_html._lines` with its `bb`/`builder` state, plus the closing
lines after it. -/
def asHtmlLines (lib : PyLib) : Option Buildbot → Option Builder → List Build → List String
  | _, builder, [] =>
    (if builder.isSome then ["</ul>", "</div>"] else []) ++ ["</body>", "</html>"]
  | bb, builder, b :: rest =>
    (if changedBuildbot b.builder.buildbot bb then [htmlServerHeader b.builder.buildbot] else []) ++
    (if changedBuilder b.builder builder then
      (if builder.isSome then ["</ul>", "</div>"] else []) ++
      ["<div class=\"builder\" id=\"" ++ as_code b.builder.name ++ "\">",
        "<h2><a href=\"" ++ Builder.url lib b.builder ++ "\">" ++ b.builder.name ++ "</a></h2>",
        "<ul>"]
      else []) ++
    [htmlBuildLine lib b] ++
    asHtmlLines lib
      (if changedBuildbot b.builder.buildbot bb then some b.builder.buildbot else bb)
      (if changedBuilder b.builder builder then some b.builder else builder) rest

/-- `Builds.as_html` (the `with_mimetype("text/html")` decorator pairs the
mimetype with the joined lines). -/
def as_html (lib : PyLib) (builds : List Build) : String × String :=
  ("text/html", String.intercalate "\n" (htmlPreamble ++ asHtmlLines lib none none builds))

/-- The build line of `as_text`:
`"  [%s] Build %d on branch %s rev %s at %s"`. -/
def textBuildLine (lib : PyLib) (b : Build) : String :=
  "  [" ++ pyUpper b.result ++ "] Build " ++ toString b.sequence ++ " on branch " ++ b.branch ++
    " rev " ++ b.revision ++ " at " ++ lib.strftime b.finished_at

/-- The loop of `as_text._lines` with its `bb`/`builder` state (`"=" * len(name)`
is the underline). -/
def asTextLines (lib : PyLib) : Option Buildbot → Option Builder → List Build → List String
  | _, _, [] => []
  | bb, builder, b :: rest =>
    (if changedBuildbot b.builder.buildbot bb then
      ["", b.builder.buildbot.name, ⟨List.replicate b.builder.buildbot.name.data.length '='⟩, ""]
      else []) ++
    (if changedBuilder b.builder builder then ["", b.builder.name] else []) ++
    [textBuildLine lib b] ++
    asTextLines lib
      (if changedBuildbot b.builder.buildbot bb then some b.builder.buildbot else bb)
      (if changedBuilder b.builder builder then some b.builder else builder) rest

/-- `Builds.as_text`. -/
def as_text (lib : PyLib) (builds : List Build) : String × String :=
  ("text/plain", String.intercalate "\n" (asTextLines lib none none builds))

/-- The JSON documents `json.dumps` serializes here: strings, integers, arrays
and objects (tuples become arrays). -/
inductive JValue where
  | jstr (s : String)
  | jint (n : Int)
  | jarr (items : List JValue)
  | jobj (fields : List (String × JValue))

/-- The values held by a build's `_info` dict. -/
inductive PyValue where
  | pstr (s : String)
  | pint (n : Int)
  | ptime (t : Nat)
  | ppairs (l : List (String × String))
deriving DecidableEq

/-- `jsonify`, the `default=` hook of `json.dumps` in `as_json`: a datetime is
encoded as its `isoformat()` string; the other values serialize natively
(a tuple as an array). -/
def jsonifyValue (lib : PyLib) : PyValue → JValue
  | .pstr s => .jstr s
  | .pint n => .jint n
  | .ptime t => .jstr (lib.isoformat t)
  | .ppairs l => .jarr (l.map (fun p => .jarr [.jstr p.1, .jstr p.2]))

/-- `dict(b)` for a build `b`: `Build.__iter__` iterates `self._info.items()`,
whose insertion order is the kwargs order of `Builder.last_n_builds` with
`sequence` popped out. -/
def infoItems (b : Build) : List (String × PyValue) :=
  [("name", .pstr b.name), ("started_at", .ptime b.started_at),
    ("finished_at", .ptime b.finished_at), ("branch", .pstr b.branch),
    ("revision", .pstr b.revision), ("result", .pstr b.result), ("text", .pstr b.text),
    ("reasons", .ppairs b.reasons)]

/-- One element of the list `as_json` serializes:
`(b.builder.buildbot.name, b.builder.name, b.sequence, dict(b))`. -/
def jsonTupleOf (lib : PyLib) (b : Build) : JValue :=
  .jarr [.jstr b.builder.buildbot.name, .jstr b.builder.name, .jint b.sequence,
    .jobj ((infoItems b).map (fun kv => (kv.1, jsonifyValue lib kv.2)))]

/-- The JSON document `as_json` passes to `json.dumps`. -/
def jsonDoc (lib : PyLib) (builds : List Build) : JValue := .jarr (builds.map (jsonTupleOf lib))

/-- JSON string escaping of the serializer (the control-character and
non-ASCII escapes of the standard library's `json.dumps` are not needed for
the document equalities proved here). -/
def jsonEscape (s : String) : String :=
  ⟨s.data.flatMap (fun c => if c = '\\' then ['\\', '\\'] else if c = '"' then ['\\', '"'] else [c])⟩

mutual

/-- Model of the standard library's `json.dumps` (default separators) on the
documents produced here. -/
def jsonDump : JValue → String
  | .jstr s => "\"" ++ jsonEscape s ++ "\""
  | .jint n => toString n
  | .jarr items => "[" ++ jsonDumpList items ++ "]"
  | .jobj fields => "\x7b" ++ jsonDumpFields fields ++ "\x7d"

def jsonDumpList : List JValue → String
  | [] => ""
  | [x] => jsonDump x
  | x :: y :: xs => jsonDump x ++ ", " ++ jsonDumpList (y :: xs)

def jsonDumpFields : List (String × JValue) → String
  | [] => ""
  | [kv] => "\"" ++ jsonEscape kv.1 ++ "\": " ++ jsonDump kv.2
  | kv :: kw :: kvs => "\"" ++ jsonEscape kv.1 ++ "\": " ++ jsonDump kv.2 ++ ", " ++ jsonDumpFields (kw :: kvs)

end

/-- `Builds.as_json`: `json.dumps([(b.builder.buildbot.name, b.builder.name,
b.sequence, dict(b)) for b in self.builds], default=jsonify)`. -/
def as_json (lib : PyLib) (builds : List Build) : String × String :=
  ("application/json", jsonDump (jsonDoc lib builds))

/-- Reading one rendered tuple back from the parsed JSON: an array
`[server name, builder name, sequence, field map]`. -/
def decodeTuple : JValue → Option (String × String × Int × List (String × JValue))
  | .jarr [.jstr s, .jstr bn, .jint q, .jobj fields] => some (s, bn, q, fields)
  | _ => none

/-- Reading the rendered document back: the standard library's `json.loads`
(the inverse of `json.dumps`, both outside this repository) recovers the
document, and this reads off the list of tuples. -/
def decodeDoc : JValue → Option (List (String × String × Int × List (String × JValue)))
  | .jarr items => items.mapM decodeTuple
  | _ => none

/-- The attribute table behind `getattr(self, "as_" + format)` on a `Builds`
instance: its only attributes whose names start with `"as_"` are the three
renderers (every other attribute — `builds`, `output_as`, `TIMESTAMP_FORMAT`,
the inherited `object` attributes — starts otherwise, and `"as_" + format`
always starts with `"as_"`). -/
def builds_method (attr : String) : Option (PyLib → List Build → String × String) :=
  if attr = "as_json" then some as_json
  else if attr = "as_html" then some as_html
  else if attr = "as_text" then some as_text
  else none

/-- `Builds.output_as(format)`: `getattr(self, "as_" + format)()`; a missing
attribute raises `AttributeError`. -/
def output_as (lib : PyLib) (builds : List Build) (format : String) :
    Except String (String × String) :=
  match builds_method ("as_" ++ format) with
  | some f => Except.ok (f lib builds)
  | none => Except.error ("AttributeError: as_" ++ format)

/-- One raw build record as `getLastBuilds` returns it: the 9-tuple
`(name, sequence, started_at, finished_at, branch, revision, result, text, reasons)`
that `Builder.last_n_builds` unpacks. -/
structure RawBuild where
  name : String
  sequence : Int
  started_at : Nat
  finished_at : Nat
  branch : String
  revision : String
  result : String
  text : String
  reasons : List (String × String)
deriving DecidableEq

/-- The XMLRPC proxy, a black box outside this repository: the answers of its
two remote calls, `getAllBuilders()` and `getLastBuilds(name, n_builds)`. -/
structure Proxy where
  allBuilders : List String
  lastBuilds : String → Nat → List RawBuild

/-- `Builder.last_n_builds`: one `Build` per record of
`getLastBuilds(self.name, n_builds)` (it never yields `None`, so the
`if build is None: continue` of `get_builds` is vacuous and omitted). -/
def Builder.last_n_builds (proxy : Proxy) (c : Builder) (n : Nat) : List Build :=
  (proxy.lastBuilds c.name n).map (fun r =>
    { builder := c, name := r.name, sequence := r.sequence, started_at := r.started_at,
      finished_at := r.finished_at, branch := r.branch, revision := r.revision,
      result := r.result, text := r.text, reasons := r.reasons })

/-- `Buildbot.builders(pattern)`: one `Builder` per name of `getAllBuilders()`
that `fnmatch.fnmatch(name, pattern)` accepts. -/
def Buildbot.buildersMatching (lib : PyLib) (proxy : Proxy) (bb : Buildbot) (pattern : String) :
    List Builder :=
  (proxy.allBuilders.filter (fun nm => lib.fnmatch nm pattern)).map
    (fun nm => { buildbot := bb, name := nm })

/-- The `pattern` argument of `get_builds`: a single string, or a list
(`patterns = pattern if isinstance(pattern, list) else [pattern]`). -/
inductive PatternArg where
  | one (p : String)
  | many (ps : List String)

/-- The pattern list `get_builds` iterates over. -/
def normalizePatterns : PatternArg → List String
  | .one p => [p]
  | .many ps => ps

/-- The `always_status` argument of `get_builds`: `None`, a single status, or a
list of statuses. -/
inductive StatusArg where
  | noStatus
  | oneStatus (s : String)
  | manyStatuses (ss : List String)

/-- `always_statuses = set(a.lower() for a in always_status)` after the `None`
and single-value normalization (modelled as the list of lowered statuses; only
membership in it is ever used). -/
def alwaysStatuses : StatusArg → List String
  | .noStatus => []
  | .oneStatus s => [pyLower s]
  | .manyStatuses ss => ss.map pyLower

/-- The cutoff `since`: `datetime.min` (that is, `0`) when `since_minutes` is
`None`, else `datetime.datetime.now() - datetime.timedelta(minutes=...)`
(truncated at `datetime.min`, below which no Python datetime exists). -/
def sinceCutoff (now : Nat) : Option Nat → Nat
  | none => 0
  | some m => now - m

/-- The `builds` list collected for one builder inside `get_builds`: the
fetched builds whose `finished_at` is not before `since`. -/
def keptBuilds (proxy : Proxy) (since : Nat) (n : Nat) (c : Builder) : List Build :=
  (Builder.last_n_builds proxy c n).filter (fun b => !decide (b.finished_at < since))

/-- What `get_builds` yields for one builder: nothing when an `always_statuses`
set is given and some kept build's lowered `result` is outside it, else every
kept build. -/
def builderSegment (proxy : Proxy) (statuses : List String) (since : Nat) (n : Nat)
    (c : Builder) : List Build :=
  if !statuses.isEmpty &&
      !((keptBuilds proxy since n c).all (fun b => statuses.contains (pyLower b.result))) then
    []
  else
    keptBuilds proxy since n c

/-- `get_builds(buildbot_url, repo_url, pattern, always_status, since_minutes,
latest_n_builds)`, the aggregation pipeline of `buildbotinfo.py`. -/
def get_builds (lib : PyLib) (proxy : Proxy) (now : Nat) (buildbot_url repo_url : String)
    (pattern : PatternArg) (always_status : StatusArg) (since_minutes : Option Nat)
    (latest_n_builds : Nat) : List Build :=
  (normalizePatterns pattern).flatMap (fun pat =>
    (Buildbot.buildersMatching lib proxy (Buildbot.init buildbot_url repo_url) pat).flatMap
      (builderSegment proxy (alwaysStatuses always_status) (sinceCutoff now since_minutes)
        latest_n_builds))

/-- Modelled from the spec: the two outcome-filter policies of §4.2 step 5 are
mutually exclusive configuration options per invocation; the source's
`get_builds` implements only `always-status`, and the `only-failures` variant
is not among the repository's files, so it is modelled here as an enumerated,
structurally exclusive configuration. -/
inductive OutcomeFilter where
  | noFilter
  | onlyFailures
  | alwaysStatus (s : StatusArg)

/-- Modelled from the spec: the pipeline with the outcome filter as a
configuration option.  The `always-status` arms follow the source's
`get_builds`; the `only-failures` arm follows the spec's words, "drop builds
whose outcome is \"success\"". -/
def collectVariant (lib : PyLib) (proxy : Proxy) (now : Nat) (buildbot_url repo_url : String)
    (pattern : PatternArg) (filter : OutcomeFilter) (since_minutes : Option Nat)
    (latest_n_builds : Nat) : List Build :=
  match filter with
  | .alwaysStatus s =>
    get_builds lib proxy now buildbot_url repo_url pattern s since_minutes latest_n_builds
  | .noFilter =>
    get_builds lib proxy now buildbot_url repo_url pattern .noStatus since_minutes latest_n_builds
  | .onlyFailures =>
    (get_builds lib proxy now buildbot_url repo_url pattern .noStatus since_minutes
        latest_n_builds).filter
      (fun b => b.result != "success")

theorem builder_of_mem_last_n {proxy : Proxy} {c : Builder} {n : Nat} {b : Build}
    (h : b ∈ Builder.last_n_builds proxy c n) : b.builder = c := by
  unfold Builder.last_n_builds at h
  rcases List.mem_map.1 h with ⟨r, _, rfl⟩
  rfl

theorem mem_keptBuilds {proxy : Proxy} {since n : Nat} {c : Builder} {b : Build}
    (h : b ∈ keptBuilds proxy since n c) :
    b ∈ Builder.last_n_builds proxy c n ∧ ¬ (b.finished_at < since) := by
  unfold keptBuilds at h
  have h2 := List.mem_filter.1 h
  refine ⟨h2.1, ?_⟩
  have h3 := h2.2
  simp only [Bool.not_eq_true'] at h3
  exact of_decide_eq_false h3

theorem buildbot_of_mem_buildersMatching {lib : PyLib} {proxy : Proxy} {bb : Buildbot}
    {pat : String} {c : Builder} (h : c ∈ Buildbot.buildersMatching lib proxy bb pat) :
    c.buildbot = bb := by
  unfold Buildbot.buildersMatching at h
  rcases List.mem_map.1 h with ⟨nm, _, rfl⟩
  rfl

theorem mem_get_builds_split {lib : PyLib} {proxy : Proxy} {now : Nat} {url repo : String}
    {pattern : PatternArg} {sArg : StatusArg} {sinceM : Option Nat} {n : Nat} {b : Build}
    (h : b ∈ get_builds lib proxy now url repo pattern sArg sinceM n) :
    ∃ pat ∈ normalizePatterns pattern,
      ∃ c ∈ Buildbot.buildersMatching lib proxy (Buildbot.init url repo) pat,
        b ∈ builderSegment proxy (alwaysStatuses sArg) (sinceCutoff now sinceM) n c := by
  unfold get_builds at h
  rcases List.mem_flatMap.1 h with ⟨pat, hpat, h2⟩
  rcases List.mem_flatMap.1 h2 with ⟨c, hc, h3⟩
  exact ⟨pat, hpat, c, hc, h3⟩

theorem mem_builderSegment {proxy : Proxy} {statuses : List String} {since n : Nat}
    {c : Builder} {b : Build} (h : b ∈ builderSegment proxy statuses since n c) :
    b ∈ keptBuilds proxy since n c ∧
      (statuses = [] ∨
        ∀ x ∈ keptBuilds proxy since n c, statuses.contains (pyLower x.result) = true) := by
  unfold builderSegment at h
  split at h
  · cases h
  · rename_i hcond
    refine ⟨h, ?_⟩
    by_cases hs : statuses = []
    · exact Or.inl hs
    · right
      have hne : statuses.isEmpty = false := by
        rcases statuses with _ | ⟨s, ss⟩
        · exact absurd rfl hs
        · rfl
      rcases hall : (keptBuilds proxy since n c).all (fun x => statuses.contains (pyLower x.result))
        with _ | _
      · exact absurd (by rw [hne, hall]; rfl) hcond
      · exact List.all_eq_true.1 hall

theorem builderSegment_eq_kept {proxy : Proxy} {statuses : List String} {since n : Nat}
    {c : Builder}
    (hall : ∀ x ∈ keptBuilds proxy since n c, statuses.contains (pyLower x.result) = true) :
    builderSegment proxy statuses since n c = keptBuilds proxy since n c := by
  unfold builderSegment
  have h : (keptBuilds proxy since n c).all (fun b => statuses.contains (pyLower b.result)) = true :=
    List.all_eq_true.2 hall
  rw [h]
  simp

/-- A concrete `PyLib`: matches any pattern, quotes nothing, prints timestamps
as numbers. -/
def exLib : PyLib :=
  { fnmatch := fun _ _ => true, urlquote := fun s => s, strftime := fun t => toString t,
    isoformat := fun t => toString t }

/-- The buildbot of the concrete examples. -/
def exBB : Buildbot := Buildbot.init "http://bb" "http://repo"

/-- The builder of the concrete examples. -/
def exBuilder : Builder := { buildbot := exBB, name := "bld" }

/-- First of two builds that `Build.__eq__` calls equal (same buildbot, builder
and sequence) but whose `name` fields differ. -/
def dupA : Build :=
  { builder := exBuilder, name := "a", sequence := 5, started_at := 0, finished_at := 10,
    branch := "default", revision := "r1", result := "failure", text := "", reasons := [] }

/-- Second of the two: only `name` differs from `dupA`. -/
def dupB : Build := { dupA with name := "b" }

/-- C1: the claim says `Builds.__init__` retains exactly one of two builds with
equal (server, builder, sequence).  The code does not: `Build.__hash__` hashes
`(self.builder, self.name)` while `Build.__eq__` compares `(builder, sequence)`,
so `dupA` and `dupB` — equal under `Build.__eq__` — land in different hash
buckets of the `set()` and are both retained. -/
theorem buildsInit_retains_duplicate_builds :
    buildPyEq dupA dupB = true ∧
      dupA ∈ Builds.init [dupA, dupB] ∧ dupB ∈ Builds.init [dupA, dupB] ∧
      (Builds.init [dupA, dupB]).length = 2 := by decide

/-- C6 counterexample: an empty list passed as the `pattern` argument is
iterated as the empty pattern list, refuting "a list input yields a non-empty
list of patterns". -/
theorem normalizePatterns_empty_list : normalizePatterns (PatternArg.many []) = [] := rfl

/-- C6 (amended): a single (non-list) pattern is normalized to a one-element
list, and a list input is iterated as-is, so the iterated list is non-empty
exactly when the input is a single pattern or a non-empty list. -/
theorem normalizePatterns_spec (p : String) (ps : List String) :
    normalizePatterns (PatternArg.one p) = [p] ∧ normalizePatterns (PatternArg.many ps) = ps :=
  ⟨rfl, rfl⟩

theorem as_append_inj {f g : String} (h : ("as_" ++ f : String) = "as_" ++ g) : f = g := by
  apply String.ext
  have h2 := congrArg String.data h
  rw [String.data_append, String.data_append] at h2
  exact List.append_cancel_left h2

theorem builds_method_some {attr : String} {f : PyLib → List Build → String × String}
    (h : builds_method attr = some f) :
    attr = "as_json" ∨ attr = "as_html" ∨ attr = "as_text" := by
  unfold builds_method at h
  split_ifs at h with h1 h2 h3
  · exact Or.inl h1
  · exact Or.inr (Or.inl h2)
  · exact Or.inr (Or.inr h3)

/-- C7: `output_as(format)` returns a `(mimeType, content)` pair exactly for the
formats `text`, `html` and `json`; for every other format the attribute lookup
`getattr(self, "as_" + format)` fails with an `AttributeError`. -/
theorem output_as_ok_iff (lib : PyLib) (builds : List Build) (format : String) :
    (∃ r, output_as lib builds format = Except.ok r) ↔
      (format = "text" ∨ format = "html" ∨ format = "json") := by
  constructor
  · rintro ⟨r, hr⟩
    unfold output_as at hr
    rcases hm : builds_method ("as_" ++ format) with _ | f
    · rw [hm] at hr
      cases hr
    · rcases builds_method_some hm with h | h | h
      · exact Or.inr (Or.inr (as_append_inj (show ("as_" ++ format : String) = "as_" ++ "json" from h)))
      · exact Or.inr (Or.inl (as_append_inj (show ("as_" ++ format : String) = "as_" ++ "html" from h)))
      · exact Or.inl (as_append_inj (show ("as_" ++ format : String) = "as_" ++ "text" from h))
  · rintro (rfl | rfl | rfl)
    · exact ⟨as_text lib builds, rfl⟩
    · exact ⟨as_html lib builds, rfl⟩
    · exact ⟨as_json lib builds, rfl⟩

/-- C8: the mime type returned alongside the content is fixed per format:
`text/plain` for `as_text`, `text/html` for `as_html`, `application/json` for
`as_json`. -/
theorem render_mimetypes (lib : PyLib) (builds : List Build) :
    (as_text lib builds).1 = "text/plain" ∧ (as_html lib builds).1 = "text/html" ∧
      (as_json lib builds).1 = "application/json" :=
  ⟨rfl, rfl, rfl⟩

/-- C10: `Buildbot.__init__` stores `repo_url.rstrip("/") + "/"`, which always
ends in `"/"` and is therefore non-empty (truthy), so the `"#"` fallback of the
revision link in `as_html` is unreachable: the link is always
`repo_url + "/rev/" + revision`. -/
theorem repo_url_slash_link (url repo rev : String) :
    (Buildbot.init url repo).repo_url ≠ "" ∧
      (Buildbot.init url repo).repo_url.data.getLast? = some '/' ∧
      revisionUrl (Buildbot.init url repo).repo_url rev =
        (Buildbot.init url repo).repo_url ++ "/rev/" ++ rev := by
  have hdata : (Buildbot.init url repo).repo_url.data = (rstripSlash repo).data ++ ['/'] := by
    show ((rstripSlash repo ++ "/" : String)).data = _
    rw [String.data_append]
  have hne : (Buildbot.init url repo).repo_url ≠ "" := by
    intro h0
    have h1 := congrArg String.data h0
    rw [hdata] at h1
    simp at h1
  refine ⟨hne, ?_, ?_⟩
  · rw [hdata]
    exact List.getLast?_concat _
  · unfold revisionUrl
    rw [if_neg hne]

/-- C2: the render-ready collection of `Builds.__init__` is totally ordered by
the documented order: server name ascending (Python string order), then builder
name ascending, then sequence descending, so the most recent builds come first
within each builder group. -/
theorem buildsInit_sorted (builds : List Build) :
    (Builds.init builds).Pairwise (fun a b =>
      pyStrLt a.builder.buildbot.name b.builder.buildbot.name ∨
        (a.builder.buildbot.name = b.builder.buildbot.name ∧
          (pyStrLt a.builder.name b.builder.name ∨
            (a.builder.name = b.builder.name ∧ b.sequence ≤ a.sequence)))) := by
  have h : List.Pairwise sortRel (Builds.init builds) :=
    List.sorted_insertionSort sortRel (pySet builds)
  refine List.Pairwise.imp ?_ h
  intro a b hab
  unfold sortRel keyLe sortKey at hab
  dsimp only at hab
  rcases hab with h1 | ⟨e1, h2⟩
  · exact Or.inl h1
  · refine Or.inr ⟨e1, ?_⟩
    rcases h2 with h2 | ⟨e2, h3⟩
    · exact Or.inl h2
    · exact Or.inr ⟨e2, by omega⟩

/-- C3: with a non-empty always-status set, a builder's builds are yielded
all-or-nothing: every yielded build of builder `bn` is one of its kept
(recency-surviving) fetched builds and its lowered outcome is in the set, and
if any of `bn`'s builds is yielded then every one of its kept builds is. -/
theorem get_builds_always_status (lib : PyLib) (proxy : Proxy) (now : Nat) (url repo : String)
    (pattern : PatternArg) (sArg : StatusArg) (sinceM : Option Nat) (n : Nat)
    (hS : alwaysStatuses sArg ≠ []) (bn : String) :
    (∀ b ∈ get_builds lib proxy now url repo pattern sArg sinceM n,
        b.builder.name = bn →
          b ∈ keptBuilds proxy (sinceCutoff now sinceM) n
              { buildbot := Buildbot.init url repo, name := bn } ∧
            (alwaysStatuses sArg).contains (pyLower b.result) = true) ∧
    ((∃ b ∈ get_builds lib proxy now url repo pattern sArg sinceM n, b.builder.name = bn) →
      ∀ x ∈ keptBuilds proxy (sinceCutoff now sinceM) n
          { buildbot := Buildbot.init url repo, name := bn },
        x ∈ get_builds lib proxy now url repo pattern sArg sinceM n) := by
  constructor
  · intro b hb hbn
    rcases mem_get_builds_split hb with ⟨pat, hpat, c, hc, hseg⟩
    rcases mem_builderSegment hseg with ⟨hkept, hguard⟩
    have hbc : b.builder = c := builder_of_mem_last_n (mem_keptBuilds hkept).1
    have hc2 : c = { buildbot := Buildbot.init url repo, name := bn } := by
      have h1 : c.buildbot = Buildbot.init url repo := buildbot_of_mem_buildersMatching hc
      have h2 : c.name = bn := by rw [← hbc]; exact hbn
      cases c with
      | mk cb cn =>
        simp only at h1 h2
        rw [h1, h2]
    rcases hguard with hnil | hall
    · exact absurd hnil hS
    · rw [hc2] at hkept hall
      exact ⟨hkept, hall b hkept⟩
  · rintro ⟨b, hb, hbn⟩ x hx
    rcases mem_get_builds_split hb with ⟨pat, hpat, c, hc, hseg⟩
    rcases mem_builderSegment hseg with ⟨hkept, hguard⟩
    have hbc : b.builder = c := builder_of_mem_last_n (mem_keptBuilds hkept).1
    have hc2 : c = { buildbot := Buildbot.init url repo, name := bn } := by
      have h1 : c.buildbot = Buildbot.init url repo := buildbot_of_mem_buildersMatching hc
      have h2 : c.name = bn := by rw [← hbc]; exact hbn
      cases c with
      | mk cb cn =>
        simp only at h1 h2
        rw [h1, h2]
    rcases hguard with hnil | hall
    · exact absurd hnil hS
    · have heq : builderSegment proxy (alwaysStatuses sArg) (sinceCutoff now sinceM) n c =
          keptBuilds proxy (sinceCutoff now sinceM) n c := builderSegment_eq_kept hall
      unfold get_builds
      refine List.mem_flatMap.2 ⟨pat, hpat, List.mem_flatMap.2 ⟨c, hc, ?_⟩⟩
      rw [heq, hc2]
      exact hx

/-- The raw record the example proxy returns: an upper-case FAILURE outcome to
exercise the case-insensitive status comparison. -/
def exRaw : RawBuild :=
  { name := "bld", sequence := 7, started_at := 90, finished_at := 95, branch := "default",
    revision := "abc", result := "FAILURE", text := "", reasons := [] }

/-- The example proxy: one builder with one recent failing build. -/
def exProxy : Proxy := { allBuilders := ["bld"], lastBuilds := fun _ _ => [exRaw] }

/-- Witness for C3: at the example server, with the non-empty always-status set
{"failure"}, the conclusion holds for builder "bld". -/
theorem get_builds_always_status_check :
    (∀ b ∈ get_builds exLib exProxy 100 "http://bb" "http://repo" (PatternArg.one "*")
        (StatusArg.manyStatuses ["failure"]) (some 60) 1,
        b.builder.name = "bld" →
          b ∈ keptBuilds exProxy (sinceCutoff 100 (some 60)) 1
              { buildbot := Buildbot.init "http://bb" "http://repo", name := "bld" } ∧
            (alwaysStatuses (StatusArg.manyStatuses ["failure"])).contains (pyLower b.result) =
              true) ∧
    ((∃ b ∈ get_builds exLib exProxy 100 "http://bb" "http://repo" (PatternArg.one "*")
        (StatusArg.manyStatuses ["failure"]) (some 60) 1, b.builder.name = "bld") →
      ∀ x ∈ keptBuilds exProxy (sinceCutoff 100 (some 60)) 1
          { buildbot := Buildbot.init "http://bb" "http://repo", name := "bld" },
        x ∈ get_builds exLib exProxy 100 "http://bb" "http://repo" (PatternArg.one "*")
          (StatusArg.manyStatuses ["failure"]) (some 60) 1) :=
  get_builds_always_status exLib exProxy 100 "http://bb" "http://repo" (PatternArg.one "*")
    (StatusArg.manyStatuses ["failure"]) (some 60) 1 (by decide) "bld"

/-- C4: when `since_minutes` is set, no yielded build finished before
`now - since_minutes`; when it is unset, the cutoff is the datetime minimum and
the recency filter keeps every fetched build. -/
theorem get_builds_recency_cutoff (lib : PyLib) (proxy : Proxy) (now : Nat) (url repo : String)
    (pattern : PatternArg) (sArg : StatusArg) (n : Nat) :
    (∀ m : Nat, ∀ b ∈ get_builds lib proxy now url repo pattern sArg (some m) n,
        ¬ (b.finished_at < now - m)) ∧
    (sinceCutoff now none = 0 ∧
      ∀ c : Builder,
        keptBuilds proxy (sinceCutoff now none) n c = Builder.last_n_builds proxy c n) := by
  constructor
  · intro m b hb
    rcases mem_get_builds_split hb with ⟨pat, _, c, _, hseg⟩
    exact (mem_keptBuilds (mem_builderSegment hseg).1).2
  · refine ⟨rfl, fun c => ?_⟩
    unfold keptBuilds
    apply List.filter_eq_self.2
    intro a _
    simp [sinceCutoff]

/-- C5: under the spec-modelled only-failures configuration (structurally
mutually exclusive with always-status in `OutcomeFilter`), the output never
contains a build whose outcome is "success". -/
theorem collect_only_failures_no_success (lib : PyLib) (proxy : Proxy) (now : Nat)
    (url repo : String) (pattern : PatternArg) (sinceM : Option Nat) (n : Nat) :
    ∀ b ∈ collectVariant lib proxy now url repo pattern OutcomeFilter.onlyFailures sinceM n,
      b.result ≠ "success" := by
  intro b hb
  unfold collectVariant at hb
  have h2 := (List.mem_filter.1 hb).2
  simpa using h2

/-- The build the example proxy's record becomes after `Builder.last_n_builds`. -/
def exOut : Build :=
  { builder := exBuilder, name := "bld", sequence := 7, started_at := 90, finished_at := 95,
    branch := "default", revision := "abc", result := "FAILURE", text := "", reasons := [] }

/-- Witness for C5: the concrete failing build flows through the only-failures
pipeline and its outcome is not "success". -/
theorem collect_only_failures_check : exOut.result ≠ "success" :=
  collect_only_failures_no_success exLib exProxy 100 "http://bb" "http://repo"
    (PatternArg.one "*") (some 60) 1 exOut (by decide)

/-- C9: rendering a collection with `as_json` serializes the document
`jsonDoc`, and reading that document back (the standard library's `json.loads`
inverts `json.dumps`) yields exactly the collection's (server name, builder
name, sequence, field-map) tuples, with timestamp values encoded as their
`isoformat` strings by `jsonify`. -/
theorem as_json_round_trip (lib : PyLib) (builds : List Build) :
    (as_json lib builds).2 = jsonDump (jsonDoc lib builds) ∧
      decodeDoc (jsonDoc lib builds) =
        some (builds.map (fun b =>
          (b.builder.buildbot.name, b.builder.name, b.sequence,
            (infoItems b).map (fun kv => (kv.1, jsonifyValue lib kv.2))))) := by
  refine ⟨rfl, ?_⟩
  induction builds with
  | nil => rfl
  | cons b bs ih =>
    have hd : decodeTuple (jsonTupleOf lib b) =
        some (b.builder.buildbot.name, b.builder.name, b.sequence,
          (infoItems b).map (fun kv => (kv.1, jsonifyValue lib kv.2))) := rfl
    simp only [jsonDoc, decodeDoc, List.map_cons, List.mapM_cons] at ih ⊢
    rw [hd]
    rw [ih]
    rfl

end BuildbotInfo
